import Mathlib

/-!
# Verification of the AST node taxonomy and traversal protocol

Shallow embedding of `src/Abstract Syntax Tree/Drivers/AstNodes.hpp`
(CompilerClasses repository): the node class hierarchy, the
`unique_vector` helper, and the `Walk` traversal protocol.

The header declares the node classes and implements
`unique_vector::push_back`; the bodies of the per-variant `Walk`
overrides are not part of the source fragment (declarations only), so
the traversal functions below are modelled from the specification's
traversal contract (§4.2): pre-order, declaration-order recursion,
silent skipping of absent optional children, fail-fast on an
unpopulated mandatory child, and an `enterVisitor` flag that only
suppresses the callback for the node itself.

A visitor is modelled by its observable effect: the recorded sequence
of visitation events, one event per visitor callback, each event being
the node value the callback receives.
-/

namespace AstNodes

/-- A lexical token (lexeme text).  The token's internal format is owned
by the lexer collaborator (`Driver1.hpp`, outside this core); only its
value identity matters here. -/
structure Token where
  text : String
deriving DecidableEq, Repr

/-- `unique_vector<T>`: a vector of owning pointers.  Each stored entry
is a possibly-null pointer, modelled as `Option α`. -/
abbrev unique_vector (α : Type) : Type := List (Option α)

/-- `unique_vector::push_back`: pushes only when the pointer is not
null, and returns whether the element was inserted
(AstNodes.hpp lines 21–29). -/
def unique_vector.push_back {α : Type} (v : unique_vector α) (ptr : Option α) :
    unique_vector α × Bool :=
  match ptr with
  | some x => (v ++ [some x], true)
  | none => (v, false)

/-- `TypeNode` (AstNodes.hpp lines 99–106): name token and pointer
indirection count; no owned children. -/
structure TypeNode where
  mName : Token
  mPointerCount : Nat
deriving DecidableEq, Repr

/-- `ParameterNode` (AstNodes.hpp lines 128–135): name token and a
mandatory owned type.  The owning pointer itself is nullable
(`std::unique_ptr`), hence `Option`; well-formedness requires it
populated. -/
structure ParameterNode where
  mName : Token
  mType : Option TypeNode
deriving DecidableEq, Repr

mutual

/-- `ExpressionNode` and its concrete subclasses
(AstNodes.hpp lines 188–303).  Each `std::unique_ptr` field is an
`Option`; `unique_vector` children hold non-absent entries (the
containers reject null insertion), hence plain lists. -/
inductive ExpressionNode where
  | valueNode (mToken : Token)
  | binaryOperatorNode (mOperator : Token)
      (mLeft : Option ExpressionNode) (mRight : Option ExpressionNode)
  | unaryOperatorNode (mOperator : Token) (mRight : Option ExpressionNode)
  | memberAccessNode (mLeft : Option ExpressionNode)
      (mOperator : Token) (mName : Token)
  | callNode (mLeft : Option ExpressionNode) (mArguments : List ExpressionNode)
  | castNode (mLeft : Option ExpressionNode) (mType : Option TypeNode)
  | indexNode (mLeft : Option ExpressionNode) (mIndex : Option ExpressionNode)

/-- `VariableNode` (AstNodes.hpp lines 108–118): name, mandatory type,
optional initial value. -/
inductive VariableNode where
  | mk (mName : Token) (mType : Option TypeNode)
      (mInitialValue : Option ExpressionNode)

/-- `ScopeNode` (AstNodes.hpp lines 120–126): ordered list of
statements. -/
inductive ScopeNode where
  | mk (mStatements : List StatementNode)

/-- `IfNode` (AstNodes.hpp lines 194–207): optional condition,
mandatory then-scope, optional else — the else slot is typed
`std::unique_ptr<IfNode>`, so a present else child is itself an `If`
node. -/
inductive IfNode where
  | mk (mCondition : Option ExpressionNode) (mScope : Option ScopeNode)
      (mElse : Option IfNode)

/-- `StatementNode` and its concrete subclasses
(AstNodes.hpp lines 92–234). -/
inductive StatementNode where
  | variableStmt (v : VariableNode)
  | scopeStmt (s : ScopeNode)
  | labelNode (mName : Token)
  | gotoNode (mName : Token)
  | returnNode (mReturnValue : Option ExpressionNode)
  | breakNode
  | continueNode
  | expressionStmt (e : ExpressionNode)
  | ifStmt (i : IfNode)
  | whileNode (mCondition : Option ExpressionNode) (mScope : Option ScopeNode)
  | forNode (mInitialVariable : Option VariableNode)
      (mInitialExpression : Option ExpressionNode)
      (mCondition : Option ExpressionNode)
      (mIterator : Option ExpressionNode)
      (mScope : Option ScopeNode)

/-- `AbstractNode`, the root of the hierarchy (AstNodes.hpp lines
64–70), together with the subclasses that derive from it directly:
`BlockNode`, `ClassNode`, `FunctionNode`, `TypeNode`, `ParameterNode`,
and the `StatementNode` branch. -/
inductive AbstractNode where
  | blockNode (mGlobals : List AbstractNode)
  | classNode (mName : Token) (mMembers : List AbstractNode)
  | functionNode (mName : Token) (mParameters : List ParameterNode)
      (mReturnType : Option TypeNode) (mScope : Option ScopeNode)
  | typeWrap (t : TypeNode)
  | parameterWrap (p : ParameterNode)
  | statementWrap (s : StatementNode)

end

/-- Projection: condition slot of an `If` node. -/
def IfNode.mCondition : IfNode → Option ExpressionNode
  | .mk c _ _ => c

/-- Projection: then-scope slot of an `If` node. -/
def IfNode.mScope : IfNode → Option ScopeNode
  | .mk _ s _ => s

/-- Projection: else slot of an `If` node (typed `unique_ptr<IfNode>`
in the source, line 204). -/
def IfNode.mElse : IfNode → Option IfNode
  | .mk _ _ e => e

/-- The `is-a` injection of a statement into the `AbstractNode`
hierarchy (C++ derivation `StatementNode : public AbstractNode`). -/
def StatementNode.toAbstract (s : StatementNode) : AbstractNode :=
  .statementWrap s

/-- The `is-a` injection of an expression (`ExpressionNode : public
StatementNode : public AbstractNode`). -/
def ExpressionNode.toAbstract (e : ExpressionNode) : AbstractNode :=
  .statementWrap (.expressionStmt e)

/-- The `is-a` injection of an `If` node. -/
def IfNode.toAbstract (i : IfNode) : AbstractNode :=
  .statementWrap (.ifStmt i)

/-- The `is-a` injection of a scope. -/
def ScopeNode.toAbstract (s : ScopeNode) : AbstractNode :=
  .statementWrap (.scopeStmt s)

/-- The `is-a` injection of a variable declaration. -/
def VariableNode.toAbstract (v : VariableNode) : AbstractNode :=
  .statementWrap (.variableStmt v)

/-- The `is-a` injection of a type node. -/
def TypeNode.toAbstract (t : TypeNode) : AbstractNode :=
  .typeWrap t

/-- The `is-a` injection of a parameter node. -/
def ParameterNode.toAbstract (p : ParameterNode) : AbstractNode :=
  .parameterWrap p

/-! ## The traversal protocol

Modelled from the spec: the per-variant `Walk` bodies are declared but
not defined in the source fragment (AstNodes.hpp only declares
`void Walk(Visitor*, bool visit = true)` per class); the functions
below follow the spec's traversal contract (§4.2): the node's own
callback fires first (when `visit` is true), then children are walked
in declared field order; absent optional children are skipped
silently; an unpopulated mandatory child aborts the traversal
(fail fast), modelled by returning `none`. -/

/-- Modelled from the spec: walking a `TypeNode` fires its callback and
recurses into no children (it owns none). -/
def walkType (t : TypeNode) : List AbstractNode :=
  [t.toAbstract]

/-- Modelled from the spec: an optional type child — absent is skipped
silently. -/
def walkOptType : Option TypeNode → List AbstractNode
  | some ty => walkType ty
  | none => []

/-- Modelled from the spec: a mandatory type child — unpopulated aborts
the traversal. -/
def walkTypeMand : Option TypeNode → Option (List AbstractNode)
  | some ty => some (walkType ty)
  | none => none

/-- Modelled from the spec: children of a `ParameterNode` (its
mandatory type). -/
def walkParamChildren (p : ParameterNode) : Option (List AbstractNode) :=
  walkTypeMand p.mType

/-- Modelled from the spec: full walk of a `ParameterNode` (callback,
then children). -/
def walkParamFull (p : ParameterNode) : Option (List AbstractNode) :=
  (walkParamChildren p).map (p.toAbstract :: ·)

/-- Modelled from the spec: walk of an ordered parameter list, in
source order. -/
def walkParamList : List ParameterNode → Option (List AbstractNode)
  | [] => some []
  | p :: ps =>
    match walkParamFull p, walkParamList ps with
    | some a, some b => some (a ++ b)
    | _, _ => none

mutual

/-- Modelled from the spec: children trace of an `ExpressionNode`
variant, in declared field order (`BinaryOperator`: left before right;
`Call`: callee left before arguments in source order; `PostExpression`
left operand before the variant's own child). -/
def walkChildrenExpr : ExpressionNode → Option (List AbstractNode)
  | .valueNode _ => some []
  | .binaryOperatorNode _ l r =>
    match walkExprMand l, walkExprMand r with
    | some a, some b => some (a ++ b)
    | _, _ => none
  | .unaryOperatorNode _ r => walkExprMand r
  | .memberAccessNode l _ _ => walkExprMand l
  | .callNode l args =>
    match walkExprMand l, walkExprList args with
    | some a, some b => some (a ++ b)
    | _, _ => none
  | .castNode l ty =>
    match walkExprMand l, walkTypeMand ty with
    | some a, some b => some (a ++ b)
    | _, _ => none
  | .indexNode l ix =>
    match walkExprMand l, walkExprMand ix with
    | some a, some b => some (a ++ b)
    | _, _ => none

/-- Modelled from the spec: a mandatory expression child — unpopulated
aborts; present fires the child's callback then its children. -/
def walkExprMand : Option ExpressionNode → Option (List AbstractNode)
  | none => none
  | some e => (walkChildrenExpr e).map (e.toAbstract :: ·)

/-- Modelled from the spec: an optional expression child — absent is
skipped silently (no callback fires). -/
def walkExprOpt : Option ExpressionNode → Option (List AbstractNode)
  | none => some []
  | some e => (walkChildrenExpr e).map (e.toAbstract :: ·)

/-- Modelled from the spec: walk of an ordered expression list, in
source order. -/
def walkExprList : List ExpressionNode → Option (List AbstractNode)
  | [] => some []
  | e :: es =>
    match (walkChildrenExpr e).map (e.toAbstract :: ·), walkExprList es with
    | some a, some b => some (a ++ b)
    | _, _ => none

/-- Modelled from the spec: children of a `VariableNode` — mandatory
type, then optional initial value. -/
def walkChildrenVar : VariableNode → Option (List AbstractNode)
  | .mk _ ty init =>
    match walkTypeMand ty, walkExprOpt init with
    | some a, some b => some (a ++ b)
    | _, _ => none

/-- Modelled from the spec: an optional variable child (`For`
initializer) — absent is skipped silently. -/
def walkVarOpt : Option VariableNode → Option (List AbstractNode)
  | none => some []
  | some v => (walkChildrenVar v).map (v.toAbstract :: ·)

/-- Modelled from the spec: children of a `ScopeNode` — its statements
in order. -/
def walkChildrenScope : ScopeNode → Option (List AbstractNode)
  | .mk stmts => walkStmtList stmts

/-- Modelled from the spec: a mandatory scope child — unpopulated
aborts the traversal. -/
def walkScopeMand : Option ScopeNode → Option (List AbstractNode)
  | none => none
  | some s => (walkChildrenScope s).map (s.toAbstract :: ·)

/-- Modelled from the spec: children of an `IfNode` — condition (if
present), then-scope (mandatory), else (if present). -/
def walkChildrenIf : IfNode → Option (List AbstractNode)
  | .mk c sc el =>
    match walkExprOpt c, walkScopeMand sc, walkIfOpt el with
    | some a, some b, some d => some (a ++ b ++ d)
    | _, _, _ => none

/-- Modelled from the spec: an optional else child — absent is skipped
silently. -/
def walkIfOpt : Option IfNode → Option (List AbstractNode)
  | none => some []
  | some i => (walkChildrenIf i).map (i.toAbstract :: ·)

/-- Modelled from the spec: walk of an ordered statement list, in
source order. -/
def walkStmtList : List StatementNode → Option (List AbstractNode)
  | [] => some []
  | s :: ss =>
    match (walkChildrenStmt s).map (s.toAbstract :: ·), walkStmtList ss with
    | some a, some b => some (a ++ b)
    | _, _ => none

/-- Modelled from the spec: children trace of a `StatementNode`
variant, in declared field order (`While`: condition then scope; `For`:
init-variable, init-expression, condition, iterator, scope). -/
def walkChildrenStmt : StatementNode → Option (List AbstractNode)
  | .variableStmt v => walkChildrenVar v
  | .scopeStmt s => walkChildrenScope s
  | .labelNode _ => some []
  | .gotoNode _ => some []
  | .returnNode rv => walkExprOpt rv
  | .breakNode => some []
  | .continueNode => some []
  | .expressionStmt e => walkChildrenExpr e
  | .ifStmt i => walkChildrenIf i
  | .whileNode c sc =>
    match walkExprMand c, walkScopeMand sc with
    | some a, some b => some (a ++ b)
    | _, _ => none
  | .forNode iv ie c it sc =>
    match walkVarOpt iv, walkExprOpt ie, walkExprOpt c, walkExprOpt it,
        walkScopeMand sc with
    | some a, some b, some d, some e, some f => some (a ++ b ++ d ++ e ++ f)
    | _, _, _, _, _ => none

/-- Modelled from the spec: walk of an ordered list of globals or
members, in source order. -/
def walkAbsList : List AbstractNode → Option (List AbstractNode)
  | [] => some []
  | n :: ns =>
    match (walkChildrenAbs n).map (n :: ·), walkAbsList ns with
    | some a, some b => some (a ++ b)
    | _, _ => none

/-- Modelled from the spec: children trace of an `AbstractNode`
variant, in declared field order (`Function`: parameters, optional
return type, mandatory scope). -/
def walkChildrenAbs : AbstractNode → Option (List AbstractNode)
  | .blockNode gs => walkAbsList gs
  | .classNode _ ms => walkAbsList ms
  | .functionNode _ ps rt sc =>
    match walkParamList ps, walkScopeMand sc with
    | some a, some b => some (a ++ walkOptType rt ++ b)
    | _, _ => none
  | .typeWrap _ => some []
  | .parameterWrap p => walkParamChildren p
  | .statementWrap s => walkChildrenStmt s

end

/-- Modelled from the spec: `AbstractNode::Walk(visitor, visit = true)`
(AstNodes.hpp line 69).  When `visit` (the `enterVisitor` flag) is
true, the visitor's callback fires for `node` itself before recursing
into children; when false, only the children are walked.  The result is
the recorded visitation sequence, or `none` when the traversal hits an
unpopulated mandatory child (fail fast). -/
def AbstractNode.Walk (node : AbstractNode) (visit : Bool := true) :
    Option (List AbstractNode) :=
  (walkChildrenAbs node).map fun rest => if visit then node :: rest else rest

/-- `IfNode::Walk`, through the `is-a` injection. -/
def IfNode.Walk (i : IfNode) (visit : Bool := true) :
    Option (List AbstractNode) :=
  AbstractNode.Walk i.toAbstract visit

/-! ## Well-formedness

A tree is well-formed once every mandatory child slot is populated,
recursively throughout (spec §3 and glossary); present optional
children must themselves be well-formed. -/

/-- A parameter is well-formed when its mandatory type slot is
populated. -/
def wfParam (p : ParameterNode) : Bool :=
  p.mType.isSome

/-- All parameters of a list are well-formed. -/
def wfParamList : List ParameterNode → Bool
  | [] => true
  | p :: ps => wfParam p && wfParamList ps

mutual

/-- Well-formedness of an expression: every mandatory slot populated,
recursively. -/
def wfExpr : ExpressionNode → Bool
  | .valueNode _ => true
  | .binaryOperatorNode _ l r => wfExprMand l && wfExprMand r
  | .unaryOperatorNode _ r => wfExprMand r
  | .memberAccessNode l _ _ => wfExprMand l
  | .callNode l args => wfExprMand l && wfExprList args
  | .castNode l ty => wfExprMand l && ty.isSome
  | .indexNode l ix => wfExprMand l && wfExprMand ix

/-- A mandatory expression slot: populated and well-formed. -/
def wfExprMand : Option ExpressionNode → Bool
  | none => false
  | some e => wfExpr e

/-- An optional expression slot: well-formed when present. -/
def wfExprOpt : Option ExpressionNode → Bool
  | none => true
  | some e => wfExpr e

/-- All expressions of a list are well-formed. -/
def wfExprList : List ExpressionNode → Bool
  | [] => true
  | e :: es => wfExpr e && wfExprList es

/-- Well-formedness of a variable declaration: mandatory type
populated, optional initial value well-formed when present. -/
def wfVar : VariableNode → Bool
  | .mk _ ty init => ty.isSome && wfExprOpt init

/-- An optional variable slot: well-formed when present. -/
def wfVarOpt : Option VariableNode → Bool
  | none => true
  | some v => wfVar v

/-- Well-formedness of a scope: all statements well-formed. -/
def wfScope : ScopeNode → Bool
  | .mk stmts => wfStmtList stmts

/-- A mandatory scope slot: populated and well-formed. -/
def wfScopeMand : Option ScopeNode → Bool
  | none => false
  | some s => wfScope s

/-- Well-formedness of an `If` node: mandatory then-scope populated;
condition and else well-formed when present. -/
def wfIf : IfNode → Bool
  | .mk c sc el => wfExprOpt c && wfScopeMand sc && wfIfOpt el

/-- An optional else slot: well-formed when present. -/
def wfIfOpt : Option IfNode → Bool
  | none => true
  | some i => wfIf i

/-- All statements of a list are well-formed. -/
def wfStmtList : List StatementNode → Bool
  | [] => true
  | s :: ss => wfStmt s && wfStmtList ss

/-- Well-formedness of a statement. -/
def wfStmt : StatementNode → Bool
  | .variableStmt v => wfVar v
  | .scopeStmt s => wfScope s
  | .labelNode _ => true
  | .gotoNode _ => true
  | .returnNode rv => wfExprOpt rv
  | .breakNode => true
  | .continueNode => true
  | .expressionStmt e => wfExpr e
  | .ifStmt i => wfIf i
  | .whileNode c sc => wfExprMand c && wfScopeMand sc
  | .forNode iv ie c it sc =>
    wfVarOpt iv && wfExprOpt ie && wfExprOpt c && wfExprOpt it &&
      wfScopeMand sc

/-- All nodes of a list are well-formed. -/
def wfAbsList : List AbstractNode → Bool
  | [] => true
  | n :: ns => wfAbs n && wfAbsList ns

/-- Well-formedness of any node of the hierarchy. -/
def wfAbs : AbstractNode → Bool
  | .blockNode gs => wfAbsList gs
  | .classNode _ ms => wfAbsList ms
  | .functionNode _ ps _ sc => wfParamList ps && wfScopeMand sc
  | .typeWrap _ => true
  | .parameterWrap p => wfParam p
  | .statementWrap s => wfStmt s

end

/-! ## The expected pre-order listing

Defined from the spec's words (§4.2, §8): the recorded visitation
sequence is the pre-order listing of the tree — each node before its
children, children in declared field order, absent optional children
contributing nothing. -/

/-- An optional type child's contribution to the pre-order listing. -/
def preOptType : Option TypeNode → List AbstractNode
  | some ty => [ty.toAbstract]
  | none => []

/-- A parameter's children in the pre-order listing. -/
def preParamChildren (p : ParameterNode) : List AbstractNode :=
  preOptType p.mType

/-- A parameter list's contribution: each parameter, then its
children. -/
def preParamList : List ParameterNode → List AbstractNode
  | [] => []
  | p :: ps => (p.toAbstract :: preParamChildren p) ++ preParamList ps

mutual

/-- Children of an expression in the pre-order listing: left before
right for `BinaryOperator`, callee before arguments for `Call`. -/
def preExprChildren : ExpressionNode → List AbstractNode
  | .valueNode _ => []
  | .binaryOperatorNode _ l r => preExprOpt l ++ preExprOpt r
  | .unaryOperatorNode _ r => preExprOpt r
  | .memberAccessNode l _ _ => preExprOpt l
  | .callNode l args => preExprOpt l ++ preExprList args
  | .castNode l ty => preExprOpt l ++ preOptType ty
  | .indexNode l ix => preExprOpt l ++ preExprOpt ix

/-- An expression slot's contribution: nothing when absent, the node
then its children when present. -/
def preExprOpt : Option ExpressionNode → List AbstractNode
  | none => []
  | some e => e.toAbstract :: preExprChildren e

/-- An expression list's contribution, in source order. -/
def preExprList : List ExpressionNode → List AbstractNode
  | [] => []
  | e :: es => (e.toAbstract :: preExprChildren e) ++ preExprList es

/-- Children of a variable declaration: type, then initial value. -/
def preVarChildren : VariableNode → List AbstractNode
  | .mk _ ty init => preOptType ty ++ preExprOpt init

/-- A variable slot's contribution. -/
def preVarOpt : Option VariableNode → List AbstractNode
  | none => []
  | some v => v.toAbstract :: preVarChildren v

/-- Children of a scope: its statements in order. -/
def preScopeChildren : ScopeNode → List AbstractNode
  | .mk stmts => preStmtList stmts

/-- A scope slot's contribution. -/
def preScopeOpt : Option ScopeNode → List AbstractNode
  | none => []
  | some s => s.toAbstract :: preScopeChildren s

/-- Children of an `If` node: condition if present, then-scope, else if
present. -/
def preIfChildren : IfNode → List AbstractNode
  | .mk c sc el => preExprOpt c ++ preScopeOpt sc ++ preIfOpt el

/-- An else slot's contribution. -/
def preIfOpt : Option IfNode → List AbstractNode
  | none => []
  | some i => i.toAbstract :: preIfChildren i

/-- A statement list's contribution, in source order. -/
def preStmtList : List StatementNode → List AbstractNode
  | [] => []
  | s :: ss => (s.toAbstract :: preStmtChildren s) ++ preStmtList ss

/-- Children of a statement in the pre-order listing. -/
def preStmtChildren : StatementNode → List AbstractNode
  | .variableStmt v => preVarChildren v
  | .scopeStmt s => preScopeChildren s
  | .labelNode _ => []
  | .gotoNode _ => []
  | .returnNode rv => preExprOpt rv
  | .breakNode => []
  | .continueNode => []
  | .expressionStmt e => preExprChildren e
  | .ifStmt i => preIfChildren i
  | .whileNode c sc => preExprOpt c ++ preScopeOpt sc
  | .forNode iv ie c it sc =>
    preVarOpt iv ++ preExprOpt ie ++ preExprOpt c ++ preExprOpt it ++
      preScopeOpt sc

/-- A node list's contribution, in source order. -/
def preAbsList : List AbstractNode → List AbstractNode
  | [] => []
  | n :: ns => (n :: preAbsChildren n) ++ preAbsList ns

/-- Children of any node in the pre-order listing. -/
def preAbsChildren : AbstractNode → List AbstractNode
  | .blockNode gs => preAbsList gs
  | .classNode _ ms => preAbsList ms
  | .functionNode _ ps rt sc => preParamList ps ++ preOptType rt ++ preScopeOpt sc
  | .typeWrap _ => []
  | .parameterWrap p => preParamChildren p
  | .statementWrap s => preStmtChildren s

end

/-- The pre-order listing of a whole tree: the root, then its children
in declared field order. -/
def preOrder (node : AbstractNode) : List AbstractNode :=
  node :: preAbsChildren node

/-! ## Counting the present nodes of a tree

The number of nodes actually present in a tree (absent optional or
unpopulated slots contribute nothing): one visitor callback should fire
per present node and none for a null position. -/

/-- Present nodes of an optional type child. -/
def cntOptType : Option TypeNode → Nat
  | some _ => 1
  | none => 0

/-- Present nodes of a parameter subtree (the parameter and its type
when populated). -/
def cntParam (p : ParameterNode) : Nat :=
  1 + cntOptType p.mType

/-- Present nodes of a parameter list. -/
def cntParamList : List ParameterNode → Nat
  | [] => 0
  | p :: ps => cntParam p + cntParamList ps

mutual

/-- Present nodes of an expression subtree. -/
def cntExpr : ExpressionNode → Nat
  | .valueNode _ => 1
  | .binaryOperatorNode _ l r => 1 + cntExprOpt l + cntExprOpt r
  | .unaryOperatorNode _ r => 1 + cntExprOpt r
  | .memberAccessNode l _ _ => 1 + cntExprOpt l
  | .callNode l args => 1 + cntExprOpt l + cntExprList args
  | .castNode l ty => 1 + cntExprOpt l + cntOptType ty
  | .indexNode l ix => 1 + cntExprOpt l + cntExprOpt ix

/-- Present nodes of an expression slot: zero when absent. -/
def cntExprOpt : Option ExpressionNode → Nat
  | none => 0
  | some e => cntExpr e

/-- Present nodes of an expression list. -/
def cntExprList : List ExpressionNode → Nat
  | [] => 0
  | e :: es => cntExpr e + cntExprList es

/-- Present nodes of a variable-declaration subtree. -/
def cntVar : VariableNode → Nat
  | .mk _ ty init => 1 + cntOptType ty + cntExprOpt init

/-- Present nodes of a variable slot. -/
def cntVarOpt : Option VariableNode → Nat
  | none => 0
  | some v => cntVar v

/-- Present nodes of a scope subtree. -/
def cntScope : ScopeNode → Nat
  | .mk stmts => 1 + cntStmtList stmts

/-- Present nodes of a scope slot. -/
def cntScopeOpt : Option ScopeNode → Nat
  | none => 0
  | some s => cntScope s

/-- Present nodes of an `If` subtree. -/
def cntIf : IfNode → Nat
  | .mk c sc el => 1 + cntExprOpt c + cntScopeOpt sc + cntIfOpt el

/-- Present nodes of an else slot. -/
def cntIfOpt : Option IfNode → Nat
  | none => 0
  | some i => cntIf i

/-- Present nodes of a statement list. -/
def cntStmtList : List StatementNode → Nat
  | [] => 0
  | s :: ss => cntStmt s + cntStmtList ss

/-- Present nodes of a statement subtree. -/
def cntStmt : StatementNode → Nat
  | .variableStmt v => cntVar v
  | .scopeStmt s => cntScope s
  | .labelNode _ => 1
  | .gotoNode _ => 1
  | .returnNode rv => 1 + cntExprOpt rv
  | .breakNode => 1
  | .continueNode => 1
  | .expressionStmt e => cntExpr e
  | .ifStmt i => cntIf i
  | .whileNode c sc => 1 + cntExprOpt c + cntScopeOpt sc
  | .forNode iv ie c it sc =>
    1 + cntVarOpt iv + cntExprOpt ie + cntExprOpt c + cntExprOpt it +
      cntScopeOpt sc

/-- Present nodes of a node list. -/
def cntAbsList : List AbstractNode → Nat
  | [] => 0
  | n :: ns => cntAbs n + cntAbsList ns

/-- Present nodes of any subtree of the hierarchy. -/
def cntAbs : AbstractNode → Nat
  | .blockNode gs => 1 + cntAbsList gs
  | .classNode _ ms => 1 + cntAbsList ms
  | .functionNode _ ps rt sc =>
    1 + cntParamList ps + cntOptType rt + cntScopeOpt sc
  | .typeWrap _ => 1
  | .parameterWrap p => cntParam p
  | .statementWrap s => cntStmt s

end

/-! ## The tree left behind by a traversal

Modelled from the spec: `Walk` borrows the tree read-only (§4.2, §5) —
the bodies being absent from the source fragment, the post-traversal
tree is modelled by rebuilding each node along the traversal's own
recursion, so that proving it equal to the input tree shows the
recursion reaches every owned slot without altering any ownership edge
or field. -/

/-- The type node left behind: fields reassembled. -/
def touchType (t : TypeNode) : TypeNode :=
  ⟨t.mName, t.mPointerCount⟩

/-- The parameter left behind. -/
def touchParam (p : ParameterNode) : ParameterNode :=
  ⟨p.mName, p.mType.map touchType⟩

mutual

/-- The expression left behind by the traversal. -/
def touchExpr : ExpressionNode → ExpressionNode
  | .valueNode tk => .valueNode tk
  | .binaryOperatorNode op l r =>
    .binaryOperatorNode op (touchExprOpt l) (touchExprOpt r)
  | .unaryOperatorNode op r => .unaryOperatorNode op (touchExprOpt r)
  | .memberAccessNode l op nm => .memberAccessNode (touchExprOpt l) op nm
  | .callNode l args => .callNode (touchExprOpt l) (touchExprList args)
  | .castNode l ty => .castNode (touchExprOpt l) (ty.map touchType)
  | .indexNode l ix => .indexNode (touchExprOpt l) (touchExprOpt ix)

/-- An expression slot left behind. -/
def touchExprOpt : Option ExpressionNode → Option ExpressionNode
  | none => none
  | some e => some (touchExpr e)

/-- An expression list left behind. -/
def touchExprList : List ExpressionNode → List ExpressionNode
  | [] => []
  | e :: es => touchExpr e :: touchExprList es

/-- A variable declaration left behind. -/
def touchVar : VariableNode → VariableNode
  | .mk nm ty init => .mk nm (ty.map touchType) (touchExprOpt init)

/-- A variable slot left behind. -/
def touchVarOpt : Option VariableNode → Option VariableNode
  | none => none
  | some v => some (touchVar v)

/-- A scope left behind. -/
def touchScope : ScopeNode → ScopeNode
  | .mk stmts => .mk (touchStmtList stmts)

/-- A scope slot left behind. -/
def touchScopeOpt : Option ScopeNode → Option ScopeNode
  | none => none
  | some s => some (touchScope s)

/-- An `If` node left behind. -/
def touchIf : IfNode → IfNode
  | .mk c sc el => .mk (touchExprOpt c) (touchScopeOpt sc) (touchIfOpt el)

/-- An else slot left behind. -/
def touchIfOpt : Option IfNode → Option IfNode
  | none => none
  | some i => some (touchIf i)

/-- A statement list left behind. -/
def touchStmtList : List StatementNode → List StatementNode
  | [] => []
  | s :: ss => touchStmt s :: touchStmtList ss

/-- A statement left behind. -/
def touchStmt : StatementNode → StatementNode
  | .variableStmt v => .variableStmt (touchVar v)
  | .scopeStmt s => .scopeStmt (touchScope s)
  | .labelNode nm => .labelNode nm
  | .gotoNode nm => .gotoNode nm
  | .returnNode rv => .returnNode (touchExprOpt rv)
  | .breakNode => .breakNode
  | .continueNode => .continueNode
  | .expressionStmt e => .expressionStmt (touchExpr e)
  | .ifStmt i => .ifStmt (touchIf i)
  | .whileNode c sc => .whileNode (touchExprOpt c) (touchScopeOpt sc)
  | .forNode iv ie c it sc =>
    .forNode (touchVarOpt iv) (touchExprOpt ie) (touchExprOpt c)
      (touchExprOpt it) (touchScopeOpt sc)

/-- A node list left behind. -/
def touchAbsList : List AbstractNode → List AbstractNode
  | [] => []
  | n :: ns => touchAbs n :: touchAbsList ns

/-- Any node left behind by the traversal. -/
def touchAbs : AbstractNode → AbstractNode
  | .blockNode gs => .blockNode (touchAbsList gs)
  | .classNode nm ms => .classNode nm (touchAbsList ms)
  | .functionNode nm ps rt sc =>
    .functionNode nm (ps.map touchParam) (rt.map touchType)
      (touchScopeOpt sc)
  | .typeWrap t => .typeWrap (touchType t)
  | .parameterWrap p => .parameterWrap (touchParam p)
  | .statementWrap s => .statementWrap (touchStmt s)

end

/-! ## Variant classification

The double dispatch selects the visitor callback by the dynamic
variant of the visited node; the classification below names that
variant. -/

/-- The concrete node variants of the taxonomy (one per concrete class
of AstNodes.hpp). -/
inductive Variant where
  | vBlock
  | vClass
  | vFunction
  | vType
  | vParameter
  | vVariable
  | vScope
  | vLabel
  | vGoto
  | vReturn
  | vBreak
  | vContinue
  | vValue
  | vBinaryOperator
  | vUnaryOperator
  | vMemberAccess
  | vCall
  | vCast
  | vIndex
  | vIf
  | vWhile
  | vFor
deriving DecidableEq, Repr

/-- The dynamic variant of a node: which visitor callback the double
dispatch selects for it. -/
def variantOf : AbstractNode → Variant
  | .blockNode _ => .vBlock
  | .classNode _ _ => .vClass
  | .functionNode _ _ _ _ => .vFunction
  | .typeWrap _ => .vType
  | .parameterWrap _ => .vParameter
  | .statementWrap s =>
    match s with
    | .variableStmt _ => .vVariable
    | .scopeStmt _ => .vScope
    | .labelNode _ => .vLabel
    | .gotoNode _ => .vGoto
    | .returnNode _ => .vReturn
    | .breakNode => .vBreak
    | .continueNode => .vContinue
    | .expressionStmt e =>
      match e with
      | .valueNode _ => .vValue
      | .binaryOperatorNode _ _ _ => .vBinaryOperator
      | .unaryOperatorNode _ _ => .vUnaryOperator
      | .memberAccessNode _ _ _ => .vMemberAccess
      | .callNode _ _ => .vCall
      | .castNode _ _ => .vCast
      | .indexNode _ _ => .vIndex
    | .ifStmt _ => .vIf
    | .whileNode _ _ => .vWhile
    | .forNode _ _ _ _ _ => .vFor

/-- Modelled from the spec: the representation of a trailing plain
`else` — an `If` node whose condition slot is absent and whose body is
the given scope. -/
def bareElse (body : Option ScopeNode) : IfNode :=
  .mk none body none

/-! ## Concrete trees

The tree of spec §8's scenario,
`Block{ Function f(x: Type) -> Type { return x + 1; } }`, and a few
smaller trees used as concrete inputs. -/

/-- The `Type` node used in the scenario. -/
def typeInt : TypeNode := ⟨⟨"Type"⟩, 0⟩

/-- The identifier reference `x`. -/
def valueX : ExpressionNode := .valueNode ⟨"x"⟩

/-- The literal `1`. -/
def valueOne : ExpressionNode := .valueNode ⟨"1"⟩

/-- The expression `x + 1`. -/
def plusExpr : ExpressionNode :=
  .binaryOperatorNode ⟨"+"⟩ (some valueX) (some valueOne)

/-- The statement `return x + 1;`. -/
def returnPlus : StatementNode := .returnNode (some plusExpr)

/-- The function body `{ return x + 1; }`. -/
def funcScope : ScopeNode := .mk [returnPlus]

/-- The parameter `x : Type`. -/
def paramX : ParameterNode := ⟨⟨"x"⟩, some typeInt⟩

/-- The function `f(x : Type) -> Type { return x + 1; }`. -/
def funcF : AbstractNode :=
  .functionNode ⟨"f"⟩ [paramX] (some typeInt) (some funcScope)

/-- The translation unit of the scenario. -/
def exampleBlock : AbstractNode := .blockNode [funcF]

/-- An `If` with a condition, a then-scope and a trailing plain else. -/
def ifWithElse : IfNode :=
  .mk (some valueX) (some (.mk [])) (some (bareElse (some (.mk []))))

/-- A variable declaration `i : Type`, used as a `For` initializer. -/
def varInit : VariableNode := .mk ⟨"i"⟩ (some typeInt) none

/-- An expression initializer, used in the same `For` node. -/
def exprInit : ExpressionNode := .valueNode ⟨"j"⟩

/-- A `For` node carrying both an init-Variable and an
init-Expression, with its mandatory scope populated. -/
def forBothInits : StatementNode :=
  .forNode (some varInit) (some exprInit) none none (some (.mk []))

/-! ## Helper lemmas: the traversal succeeds exactly on well-formed
input, and then records the pre-order listing. -/

theorem walkOptType_eq (o : Option TypeNode) :
    walkOptType o = preOptType o := by
  cases o <;> rfl

theorem walkTypeMand_eq (o : Option TypeNode) :
    walkTypeMand o = if o.isSome then some (preOptType o) else none := by
  cases o <;> rfl

theorem walkParamFull_eq (p : ParameterNode) :
    walkParamFull p =
      if wfParam p then some (p.toAbstract :: preParamChildren p)
      else none := by
  cases p with
  | mk nm ty =>
    cases ty <;>
      simp [walkParamFull, walkParamChildren, walkTypeMand, walkType,
        wfParam, preParamChildren, preOptType]

theorem walkParamList_eq (ps : List ParameterNode) :
    walkParamList ps =
      if wfParamList ps then some (preParamList ps) else none := by
  induction ps with
  | nil => rfl
  | cons p ps ih =>
    cases h1 : wfParam p <;> cases h2 : wfParamList ps <;>
      simp [walkParamList, walkParamFull_eq p, ih, wfParamList,
        preParamList, h1, h2]

mutual

theorem walkChildrenExpr_eq (e : ExpressionNode) :
    walkChildrenExpr e =
      if wfExpr e then some (preExprChildren e) else none := by
  cases e with
  | valueNode tk => rfl
  | binaryOperatorNode op l r =>
    cases h1 : wfExprMand l <;> cases h2 : wfExprMand r <;>
      simp [walkChildrenExpr, walkExprMand_eq l, walkExprMand_eq r,
        wfExpr, preExprChildren, h1, h2]
  | unaryOperatorNode op r =>
    cases h1 : wfExprMand r <;>
      simp [walkChildrenExpr, walkExprMand_eq r, wfExpr,
        preExprChildren, h1]
  | memberAccessNode l op nm =>
    cases h1 : wfExprMand l <;>
      simp [walkChildrenExpr, walkExprMand_eq l, wfExpr,
        preExprChildren, h1]
  | callNode l args =>
    cases h1 : wfExprMand l <;> cases h2 : wfExprList args <;>
      simp [walkChildrenExpr, walkExprMand_eq l, walkExprList_eq args,
        wfExpr, preExprChildren, h1, h2]
  | castNode l ty =>
    cases h1 : wfExprMand l <;> cases h2 : ty.isSome <;>
      simp [walkChildrenExpr, walkExprMand_eq l, walkTypeMand_eq ty,
        wfExpr, preExprChildren, h1, h2]
  | indexNode l ix =>
    cases h1 : wfExprMand l <;> cases h2 : wfExprMand ix <;>
      simp [walkChildrenExpr, walkExprMand_eq l, walkExprMand_eq ix,
        wfExpr, preExprChildren, h1, h2]

theorem walkExprMand_eq (o : Option ExpressionNode) :
    walkExprMand o =
      if wfExprMand o then some (preExprOpt o) else none := by
  cases o with
  | none => rfl
  | some e =>
    cases h : wfExpr e <;>
      simp [walkExprMand, walkChildrenExpr_eq e, wfExprMand,
        preExprOpt, h]

theorem walkExprOpt_eq (o : Option ExpressionNode) :
    walkExprOpt o =
      if wfExprOpt o then some (preExprOpt o) else none := by
  cases o with
  | none => rfl
  | some e =>
    cases h : wfExpr e <;>
      simp [walkExprOpt, walkChildrenExpr_eq e, wfExprOpt,
        preExprOpt, h]

theorem walkExprList_eq (es : List ExpressionNode) :
    walkExprList es =
      if wfExprList es then some (preExprList es) else none := by
  cases es with
  | nil => rfl
  | cons e es =>
    cases h1 : wfExpr e <;> cases h2 : wfExprList es <;>
      simp [walkExprList, walkChildrenExpr_eq e, walkExprList_eq es,
        wfExprList, preExprList, h1, h2]

theorem walkChildrenVar_eq (v : VariableNode) :
    walkChildrenVar v =
      if wfVar v then some (preVarChildren v) else none := by
  cases v with
  | mk nm ty init =>
    cases h1 : ty.isSome <;> cases h2 : wfExprOpt init <;>
      simp [walkChildrenVar, walkTypeMand_eq ty, walkExprOpt_eq init,
        wfVar, preVarChildren, h1, h2]

theorem walkVarOpt_eq (o : Option VariableNode) :
    walkVarOpt o =
      if wfVarOpt o then some (preVarOpt o) else none := by
  cases o with
  | none => rfl
  | some v =>
    cases h : wfVar v <;>
      simp [walkVarOpt, walkChildrenVar_eq v, wfVarOpt, preVarOpt, h]

theorem walkChildrenScope_eq (s : ScopeNode) :
    walkChildrenScope s =
      if wfScope s then some (preScopeChildren s) else none := by
  cases s with
  | mk stmts =>
    cases h : wfStmtList stmts <;>
      simp [walkChildrenScope, walkStmtList_eq stmts, wfScope,
        preScopeChildren, h]

theorem walkScopeMand_eq (o : Option ScopeNode) :
    walkScopeMand o =
      if wfScopeMand o then some (preScopeOpt o) else none := by
  cases o with
  | none => rfl
  | some s =>
    cases h : wfScope s <;>
      simp [walkScopeMand, walkChildrenScope_eq s, wfScopeMand,
        preScopeOpt, h]

theorem walkChildrenIf_eq (i : IfNode) :
    walkChildrenIf i =
      if wfIf i then some (preIfChildren i) else none := by
  cases i with
  | mk c sc el =>
    cases h1 : wfExprOpt c <;> cases h2 : wfScopeMand sc <;>
        cases h3 : wfIfOpt el <;>
      simp [walkChildrenIf, walkExprOpt_eq c, walkScopeMand_eq sc,
        walkIfOpt_eq el, wfIf, preIfChildren, h1, h2, h3]

theorem walkIfOpt_eq (o : Option IfNode) :
    walkIfOpt o = if wfIfOpt o then some (preIfOpt o) else none := by
  cases o with
  | none => rfl
  | some i =>
    cases h : wfIf i <;>
      simp [walkIfOpt, walkChildrenIf_eq i, wfIfOpt, preIfOpt, h]

theorem walkStmtList_eq (ss : List StatementNode) :
    walkStmtList ss =
      if wfStmtList ss then some (preStmtList ss) else none := by
  cases ss with
  | nil => rfl
  | cons s ss =>
    cases h1 : wfStmt s <;> cases h2 : wfStmtList ss <;>
      simp [walkStmtList, walkChildrenStmt_eq s, walkStmtList_eq ss,
        wfStmtList, preStmtList, h1, h2]

theorem walkChildrenStmt_eq (s : StatementNode) :
    walkChildrenStmt s =
      if wfStmt s then some (preStmtChildren s) else none := by
  cases s with
  | variableStmt v =>
    simpa [walkChildrenStmt, wfStmt, preStmtChildren] using
      walkChildrenVar_eq v
  | scopeStmt sc =>
    simpa [walkChildrenStmt, wfStmt, preStmtChildren] using
      walkChildrenScope_eq sc
  | labelNode nm => rfl
  | gotoNode nm => rfl
  | returnNode rv =>
    simpa [walkChildrenStmt, wfStmt, preStmtChildren] using
      walkExprOpt_eq rv
  | breakNode => rfl
  | continueNode => rfl
  | expressionStmt e =>
    simpa [walkChildrenStmt, wfStmt, preStmtChildren] using
      walkChildrenExpr_eq e
  | ifStmt i =>
    simpa [walkChildrenStmt, wfStmt, preStmtChildren] using
      walkChildrenIf_eq i
  | whileNode c sc =>
    cases h1 : wfExprMand c <;> cases h2 : wfScopeMand sc <;>
      simp [walkChildrenStmt, walkExprMand_eq c, walkScopeMand_eq sc,
        wfStmt, preStmtChildren, h1, h2]
  | forNode iv ie c it sc =>
    cases h1 : wfVarOpt iv <;> cases h2 : wfExprOpt ie <;>
        cases h3 : wfExprOpt c <;> cases h4 : wfExprOpt it <;>
        cases h5 : wfScopeMand sc <;>
      simp [walkChildrenStmt, walkVarOpt_eq iv, walkExprOpt_eq ie,
        walkExprOpt_eq c, walkExprOpt_eq it, walkScopeMand_eq sc,
        wfStmt, preStmtChildren, h1, h2, h3, h4, h5]

theorem walkAbsList_eq (ns : List AbstractNode) :
    walkAbsList ns =
      if wfAbsList ns then some (preAbsList ns) else none := by
  cases ns with
  | nil => rfl
  | cons n ns =>
    cases h1 : wfAbs n <;> cases h2 : wfAbsList ns <;>
      simp [walkAbsList, walkChildrenAbs_eq n, walkAbsList_eq ns,
        wfAbsList, preAbsList, h1, h2]

theorem walkChildrenAbs_eq (n : AbstractNode) :
    walkChildrenAbs n =
      if wfAbs n then some (preAbsChildren n) else none := by
  cases n with
  | blockNode gs =>
    simpa [walkChildrenAbs, wfAbs, preAbsChildren] using
      walkAbsList_eq gs
  | classNode nm ms =>
    simpa [walkChildrenAbs, wfAbs, preAbsChildren] using
      walkAbsList_eq ms
  | functionNode nm ps rt sc =>
    cases h1 : wfParamList ps <;> cases h2 : wfScopeMand sc <;>
      simp [walkChildrenAbs, walkParamList_eq ps, walkScopeMand_eq sc,
        walkOptType_eq rt, wfAbs, preAbsChildren, h1, h2]
  | typeWrap t => rfl
  | parameterWrap p =>
    cases p with
    | mk nm ty =>
      cases ty <;>
        simp [walkChildrenAbs, walkParamChildren, walkTypeMand,
          walkType, wfAbs, wfParam, preAbsChildren, preParamChildren,
          preOptType]
  | statementWrap s =>
    simpa [walkChildrenAbs, wfAbs, preAbsChildren] using
      walkChildrenStmt_eq s

end

/-! ## Helper lemmas: one callback per present node. -/

theorem preOptType_length (o : Option TypeNode) :
    (preOptType o).length = cntOptType o := by
  cases o <;> rfl

theorem preParamChildren_length (p : ParameterNode) :
    (preParamChildren p).length + 1 = cntParam p := by
  cases p with
  | mk nm ty =>
    cases ty <;>
      simp [preParamChildren, preOptType, cntParam, cntOptType]

theorem preParamList_length (ps : List ParameterNode) :
    (preParamList ps).length = cntParamList ps := by
  induction ps with
  | nil => rfl
  | cons p ps ih =>
    have := preParamChildren_length p
    simp [preParamList, cntParamList, ih]
    omega

mutual

theorem preExprChildren_length (e : ExpressionNode) :
    (preExprChildren e).length + 1 = cntExpr e := by
  cases e with
  | valueNode tk => rfl
  | binaryOperatorNode op l r =>
    have hl := preExprOpt_length l
    have hr := preExprOpt_length r
    simp [preExprChildren, cntExpr]
    omega
  | unaryOperatorNode op r =>
    have hr := preExprOpt_length r
    simp [preExprChildren, cntExpr]
    omega
  | memberAccessNode l op nm =>
    have hl := preExprOpt_length l
    simp [preExprChildren, cntExpr]
    omega
  | callNode l args =>
    have hl := preExprOpt_length l
    have ha := preExprList_length args
    simp [preExprChildren, cntExpr]
    omega
  | castNode l ty =>
    have hl := preExprOpt_length l
    have ht := preOptType_length ty
    simp [preExprChildren, cntExpr]
    omega
  | indexNode l ix =>
    have hl := preExprOpt_length l
    have hi := preExprOpt_length ix
    simp [preExprChildren, cntExpr]
    omega

theorem preExprOpt_length (o : Option ExpressionNode) :
    (preExprOpt o).length = cntExprOpt o := by
  cases o with
  | none => rfl
  | some e =>
    have := preExprChildren_length e
    simp [preExprOpt, cntExprOpt]
    omega

theorem preExprList_length (es : List ExpressionNode) :
    (preExprList es).length = cntExprList es := by
  cases es with
  | nil => rfl
  | cons e es =>
    have h1 := preExprChildren_length e
    have h2 := preExprList_length es
    simp [preExprList, cntExprList]
    omega

theorem preVarChildren_length (v : VariableNode) :
    (preVarChildren v).length + 1 = cntVar v := by
  cases v with
  | mk nm ty init =>
    have h1 := preOptType_length ty
    have h2 := preExprOpt_length init
    simp [preVarChildren, cntVar]
    omega

theorem preVarOpt_length (o : Option VariableNode) :
    (preVarOpt o).length = cntVarOpt o := by
  cases o with
  | none => rfl
  | some v =>
    have := preVarChildren_length v
    simp [preVarOpt, cntVarOpt]
    omega

theorem preScopeChildren_length (s : ScopeNode) :
    (preScopeChildren s).length + 1 = cntScope s := by
  cases s with
  | mk stmts =>
    have := preStmtList_length stmts
    simp [preScopeChildren, cntScope]
    omega

theorem preScopeOpt_length (o : Option ScopeNode) :
    (preScopeOpt o).length = cntScopeOpt o := by
  cases o with
  | none => rfl
  | some s =>
    have := preScopeChildren_length s
    simp [preScopeOpt, cntScopeOpt]
    omega

theorem preIfChildren_length (i : IfNode) :
    (preIfChildren i).length + 1 = cntIf i := by
  cases i with
  | mk c sc el =>
    have h1 := preExprOpt_length c
    have h2 := preScopeOpt_length sc
    have h3 := preIfOpt_length el
    simp [preIfChildren, cntIf]
    omega

theorem preIfOpt_length (o : Option IfNode) :
    (preIfOpt o).length = cntIfOpt o := by
  cases o with
  | none => rfl
  | some i =>
    have := preIfChildren_length i
    simp [preIfOpt, cntIfOpt]
    omega

theorem preStmtList_length (ss : List StatementNode) :
    (preStmtList ss).length = cntStmtList ss := by
  cases ss with
  | nil => rfl
  | cons s ss =>
    have h1 := preStmtChildren_length s
    have h2 := preStmtList_length ss
    simp [preStmtList, cntStmtList]
    omega

theorem preStmtChildren_length (s : StatementNode) :
    (preStmtChildren s).length + 1 = cntStmt s := by
  cases s with
  | variableStmt v =>
    simpa [preStmtChildren, cntStmt] using preVarChildren_length v
  | scopeStmt sc =>
    simpa [preStmtChildren, cntStmt] using preScopeChildren_length sc
  | labelNode nm => rfl
  | gotoNode nm => rfl
  | returnNode rv =>
    have := preExprOpt_length rv
    simp [preStmtChildren, cntStmt]
    omega
  | breakNode => rfl
  | continueNode => rfl
  | expressionStmt e =>
    simpa [preStmtChildren, cntStmt] using preExprChildren_length e
  | ifStmt i =>
    simpa [preStmtChildren, cntStmt] using preIfChildren_length i
  | whileNode c sc =>
    have h1 := preExprOpt_length c
    have h2 := preScopeOpt_length sc
    simp [preStmtChildren, cntStmt]
    omega
  | forNode iv ie c it sc =>
    have h1 := preVarOpt_length iv
    have h2 := preExprOpt_length ie
    have h3 := preExprOpt_length c
    have h4 := preExprOpt_length it
    have h5 := preScopeOpt_length sc
    simp [preStmtChildren, cntStmt]
    omega

theorem preAbsList_length (ns : List AbstractNode) :
    (preAbsList ns).length = cntAbsList ns := by
  cases ns with
  | nil => rfl
  | cons n ns =>
    have h1 := preAbsChildren_length n
    have h2 := preAbsList_length ns
    simp [preAbsList, cntAbsList]
    omega

theorem preAbsChildren_length (n : AbstractNode) :
    (preAbsChildren n).length + 1 = cntAbs n := by
  cases n with
  | blockNode gs =>
    have := preAbsList_length gs
    simp [preAbsChildren, cntAbs]
    omega
  | classNode nm ms =>
    have := preAbsList_length ms
    simp [preAbsChildren, cntAbs]
    omega
  | functionNode nm ps rt sc =>
    have h1 := preParamList_length ps
    have h2 := preOptType_length rt
    have h3 := preScopeOpt_length sc
    simp [preAbsChildren, cntAbs]
    omega
  | typeWrap t => rfl
  | parameterWrap p =>
    have := preParamChildren_length p
    simp [preAbsChildren, cntAbs]
    omega
  | statementWrap s =>
    simpa [preAbsChildren, cntAbs] using preStmtChildren_length s

end

/-! ## Helper lemmas: the traversal leaves the tree unchanged. -/

theorem touchType_id (t : TypeNode) : touchType t = t := rfl

theorem touchParam_id (p : ParameterNode) : touchParam p = p := by
  cases p with
  | mk nm ty => cases ty <;> rfl

theorem map_touchParam_id (ps : List ParameterNode) :
    ps.map touchParam = ps := by
  induction ps with
  | nil => rfl
  | cons p ps ih => simp [touchParam_id, ih]

theorem map_touchType_id (o : Option TypeNode) :
    o.map touchType = o := by
  cases o <;> rfl

mutual

theorem touchExpr_id (e : ExpressionNode) : touchExpr e = e := by
  cases e with
  | valueNode tk => rfl
  | binaryOperatorNode op l r =>
    simp [touchExpr, touchExprOpt_id l, touchExprOpt_id r]
  | unaryOperatorNode op r => simp [touchExpr, touchExprOpt_id r]
  | memberAccessNode l op nm => simp [touchExpr, touchExprOpt_id l]
  | callNode l args =>
    simp [touchExpr, touchExprOpt_id l, touchExprList_id args]
  | castNode l ty =>
    simp [touchExpr, touchExprOpt_id l, map_touchType_id ty]
  | indexNode l ix =>
    simp [touchExpr, touchExprOpt_id l, touchExprOpt_id ix]

theorem touchExprOpt_id (o : Option ExpressionNode) :
    touchExprOpt o = o := by
  cases o with
  | none => rfl
  | some e => simp [touchExprOpt, touchExpr_id e]

theorem touchExprList_id (es : List ExpressionNode) :
    touchExprList es = es := by
  cases es with
  | nil => rfl
  | cons e es =>
    simp [touchExprList, touchExpr_id e, touchExprList_id es]

theorem touchVar_id (v : VariableNode) : touchVar v = v := by
  cases v with
  | mk nm ty init =>
    simp [touchVar, map_touchType_id ty, touchExprOpt_id init]

theorem touchVarOpt_id (o : Option VariableNode) :
    touchVarOpt o = o := by
  cases o with
  | none => rfl
  | some v => simp [touchVarOpt, touchVar_id v]

theorem touchScope_id (s : ScopeNode) : touchScope s = s := by
  cases s with
  | mk stmts => simp [touchScope, touchStmtList_id stmts]

theorem touchScopeOpt_id (o : Option ScopeNode) :
    touchScopeOpt o = o := by
  cases o with
  | none => rfl
  | some s => simp [touchScopeOpt, touchScope_id s]

theorem touchIf_id (i : IfNode) : touchIf i = i := by
  cases i with
  | mk c sc el =>
    simp [touchIf, touchExprOpt_id c, touchScopeOpt_id sc,
      touchIfOpt_id el]

theorem touchIfOpt_id (o : Option IfNode) : touchIfOpt o = o := by
  cases o with
  | none => rfl
  | some i => simp [touchIfOpt, touchIf_id i]

theorem touchStmtList_id (ss : List StatementNode) :
    touchStmtList ss = ss := by
  cases ss with
  | nil => rfl
  | cons s ss =>
    simp [touchStmtList, touchStmt_id s, touchStmtList_id ss]

theorem touchStmt_id (s : StatementNode) : touchStmt s = s := by
  cases s with
  | variableStmt v => simp [touchStmt, touchVar_id v]
  | scopeStmt sc => simp [touchStmt, touchScope_id sc]
  | labelNode nm => rfl
  | gotoNode nm => rfl
  | returnNode rv => simp [touchStmt, touchExprOpt_id rv]
  | breakNode => rfl
  | continueNode => rfl
  | expressionStmt e => simp [touchStmt, touchExpr_id e]
  | ifStmt i => simp [touchStmt, touchIf_id i]
  | whileNode c sc =>
    simp [touchStmt, touchExprOpt_id c, touchScopeOpt_id sc]
  | forNode iv ie c it sc =>
    simp [touchStmt, touchVarOpt_id iv, touchExprOpt_id ie,
      touchExprOpt_id c, touchExprOpt_id it, touchScopeOpt_id sc]

theorem touchAbsList_id (ns : List AbstractNode) :
    touchAbsList ns = ns := by
  cases ns with
  | nil => rfl
  | cons n ns =>
    simp [touchAbsList, touchAbs_id n, touchAbsList_id ns]

theorem touchAbs_id (n : AbstractNode) : touchAbs n = n := by
  cases n with
  | blockNode gs => simp [touchAbs, touchAbsList_id gs]
  | classNode nm ms => simp [touchAbs, touchAbsList_id ms]
  | functionNode nm ps rt sc =>
    simp [touchAbs, map_touchParam_id ps, map_touchType_id rt,
      touchScopeOpt_id sc]
  | typeWrap t => rfl
  | parameterWrap p => simp [touchAbs, touchParam_id p]
  | statementWrap s => simp [touchAbs, touchStmt_id s]

end

/-! ## Sanity check: spec §8's scenario

Expected visitation order: Block → Function f → Parameter x → its
Type → ReturnType Type → Scope → Return → BinaryOperator(+) →
Value(x) → Value(1). -/

example :
    AbstractNode.Walk exampleBlock true =
      some [exampleBlock, funcF, paramX.toAbstract, typeInt.toAbstract,
        typeInt.toAbstract, funcScope.toAbstract, returnPlus.toAbstract,
        plusExpr.toAbstract, valueX.toAbstract, valueOne.toAbstract] :=
  rfl

/-! ## The claims -/

/-- C1: for every well-formed tree, `Walk` on its root records exactly
the pre-order listing of the tree in declared field order per variant
(for `If`: condition if present, then-scope, then else if present; for
`BinaryOperator`: left before right; for `Call`: callee before the
arguments in source order) — so every owned child subtree appears in
the visitation sequence exactly once, at its pre-order position. -/
theorem walk_records_preorder (t : AbstractNode) (h : wfAbs t = true) :
    AbstractNode.Walk t true = some (preOrder t) := by
  simp [AbstractNode.Walk, walkChildrenAbs_eq t, h, preOrder]

/-- Witness for C1: the scenario tree of spec §8 is well-formed and its
recorded visitation sequence is its pre-order listing. -/
theorem walk_records_preorder_witness :
    wfAbs exampleBlock = true ∧
      AbstractNode.Walk exampleBlock true = some (preOrder exampleBlock) :=
  ⟨rfl, walk_records_preorder exampleBlock rfl⟩

/-- C2: `unique_vector::push_back` rejects an absent element — pushing
a null pointer leaves the container unchanged and returns false — and
under the invariant that a container holds only non-absent entries,
any push preserves that invariant. -/
theorem push_back_rejects_absent {α : Type} (v : unique_vector α)
    (hinv : ∀ x ∈ v, x ≠ none) (p : Option α) :
    unique_vector.push_back v none = (v, false) ∧
      ∀ x ∈ (unique_vector.push_back v p).1, x ≠ none := by
  refine ⟨rfl, ?_⟩
  intro x hx
  cases p with
  | none => exact hinv x hx
  | some a =>
    simp only [unique_vector.push_back, List.mem_append,
      List.mem_singleton] at hx
    rcases hx with hx | hx
    · exact hinv x hx
    · simp [hx]

/-- Witness for C2: a container holding one entry rejects a null push
unchanged, and keeps only non-absent entries after a non-null push. -/
theorem push_back_rejects_absent_witness :
    (∀ x ∈ ([some 1] : unique_vector Nat), x ≠ none) ∧
      (unique_vector.push_back ([some 1] : unique_vector Nat) none =
          ([some 1], false) ∧
        ∀ x ∈ (unique_vector.push_back ([some 1] : unique_vector Nat)
            (some 2)).1, x ≠ none) :=
  ⟨by decide, push_back_rejects_absent [some 1] (by decide) (some 2)⟩

/-- C3: on a well-formed tree, `Walk` fires exactly one visitor
callback per present node — the recorded sequence's length equals the
number of present nodes, so an absent optional child never triggers a
callback and the visitor is never invoked on a null position. -/
theorem walk_one_callback_per_present_node (t : AbstractNode)
    (h : wfAbs t = true) :
    ∃ tr, AbstractNode.Walk t true = some tr ∧ tr.length = cntAbs t := by
  refine ⟨preOrder t, ?_, ?_⟩
  · simp [AbstractNode.Walk, walkChildrenAbs_eq t, h, preOrder]
  · have := preAbsChildren_length t
    simp [preOrder]
    omega

/-- Witness for C3: an `If` with an absent condition and an absent
else — two present nodes (the `If` and its scope), two callbacks. -/
theorem walk_one_callback_per_present_node_witness :
    wfAbs (bareElse (some (.mk []))).toAbstract = true ∧
      ∃ tr, AbstractNode.Walk (bareElse (some (.mk []))).toAbstract true =
          some tr ∧
        tr.length = cntAbs (bareElse (some (.mk []))).toAbstract :=
  ⟨rfl, walk_one_callback_per_present_node _ rfl⟩

/-- C4: calling `Walk` with `visit = false` (the `enterVisitor` flag)
yields exactly the `visit = true` sequence with the single callback for
the node itself removed; all descendant callbacks and their order are
unchanged. -/
theorem walk_enterVisitor_false_skips_only_self (t : AbstractNode) :
    AbstractNode.Walk t true =
      (AbstractNode.Walk t false).map (t :: ·) := by
  cases h : walkChildrenAbs t <;> simp [AbstractNode.Walk, h]

/-- C5 counterexample: a `For` node with both an init-Variable and an
init-Expression populated is well-formed (its mandatory scope is
populated), so well-formedness does not make the two initializer slots
mutually exclusive. -/
theorem forNode_xor_counterexample :
    wfStmt forBothInits = true ∧
      forBothInits =
        StatementNode.forNode (some varInit) (some exprInit) none none
          (some (ScopeNode.mk [])) ∧
      (some varInit ≠ (none : Option VariableNode)) ∧
      (some exprInit ≠ (none : Option ExpressionNode)) :=
  ⟨rfl, rfl, by simp, by simp⟩

/-- C5 amended: well-formedness of a `For` node constrains each child
slot independently — present children well-formed and the mandatory
scope populated — and imposes no mutual exclusion between the
init-Variable and init-Expression slots; exclusivity is a builder
precondition the core does not enforce. -/
theorem forNode_wf_constrains_slots_independently
    (iv : Option VariableNode) (ie c it : Option ExpressionNode)
    (sc : Option ScopeNode) :
    wfStmt (.forNode iv ie c it sc) =
      (wfVarOpt iv && wfExprOpt ie && wfExprOpt c && wfExprOpt it &&
        wfScopeMand sc) :=
  rfl

/-- C6: `Walk` never mutates the tree — the tree left behind by the
traversal's recursion is identical to the input tree, every ownership
edge and node field included. -/
theorem walk_leaves_tree_unchanged (t : AbstractNode) :
    touchAbs t = t :=
  touchAbs_id t

/-- C7: traversal is deterministic and idempotent — running `Walk`
again, on the tree left behind by a first traversal, records the
identical visitation sequence. -/
theorem walk_rerun_identical (t : AbstractNode) (b : Bool) :
    AbstractNode.Walk (touchAbs t) b = AbstractNode.Walk t b := by
  rw [touchAbs_id t]

/-- C8: a present else child of an `If` node is itself an `If` node —
the double dispatch selects the `If` callback for it, never the
`Scope` one, and it is never the injection of a bare scope; a trailing
plain `else` is represented as an `If` node whose condition slot is
absent. -/
theorem if_else_child_is_if_never_scope (i e : IfNode)
    (_h : i.mElse = some e) :
    variantOf e.toAbstract = Variant.vIf ∧
      (∀ s : ScopeNode, e.toAbstract ≠ s.toAbstract) ∧
      ∀ body : Option ScopeNode,
        (bareElse body).mCondition = none ∧
          variantOf (bareElse body).toAbstract = Variant.vIf := by
  refine ⟨rfl, ?_, fun body => ⟨rfl, rfl⟩⟩
  intro s hs
  simp [IfNode.toAbstract, ScopeNode.toAbstract] at hs

/-- Witness for C8: the else child of the concrete `If` above is the
bare-else `If`, classified as the `If` variant. -/
theorem if_else_child_is_if_never_scope_witness :
    ifWithElse.mElse = some (bareElse (some (.mk []))) ∧
      (variantOf (bareElse (some (.mk []))).toAbstract = Variant.vIf ∧
        (∀ s : ScopeNode,
          (bareElse (some (.mk []))).toAbstract ≠ s.toAbstract) ∧
        ∀ body : Option ScopeNode,
          (bareElse body).mCondition = none ∧
            variantOf (bareElse body).toAbstract = Variant.vIf) :=
  ⟨rfl, if_else_child_is_if_never_scope ifWithElse _ rfl⟩

/-- C9: `Walk` completes (records a sequence) exactly on well-formed
trees: on a node with an unpopulated mandatory child it aborts the
pass (fail fast, no sequence) instead of silently skipping the hole,
and under well-formedness that failure branch is unreachable. -/
theorem walk_succeeds_iff_wellFormed (t : AbstractNode) (b : Bool) :
    (AbstractNode.Walk t b).isSome = wfAbs t := by
  rw [AbstractNode.Walk, walkChildrenAbs_eq t]
  cases wfAbs t <;> simp

/-- C10: pushing a present (non-null) element always succeeds — it
returns true, appends the element at the back, and leaves the length
one larger with all previously stored entries and their order
unchanged. -/
theorem push_back_present_appends {α : Type} (v : unique_vector α)
    (x : α) :
    (unique_vector.push_back v (some x)).2 = true ∧
      (unique_vector.push_back v (some x)).1 = v ++ [some x] ∧
      (unique_vector.push_back v (some x)).1.length = v.length + 1 := by
  simp [unique_vector.push_back]

end AstNodes
